import Mathlib

/-!
Shallow embedding of `src/data_processing/ghg_automation.py`: a three-stage
GHG activity-data pipeline (load → clean → convert).  Cells are modelled by
an explicit `Value` type (string / rational number / calendar date / missing
marker `na`, the pandas NaN/NaT sentinel); a table is a list of rows, a row
carrying the four named columns plus a list of `extra` cells for any other
columns the frame holds.  Machine floats are modelled by exact rationals.
-/

namespace GHG

/-! ### Character and string helpers (ASCII semantics of the Python string
methods used by the source: strip, lower, title, substring containment) -/

def isSpaceC (c : Char) : Bool :=
  c == ' ' || c == '\t' || c == '\n' || c == '\r' || c == '\x0b' || c == '\x0c'

/-- Python `str.strip()`: drop leading and trailing whitespace. -/
def stripL (cs : List Char) : List Char :=
  ((cs.dropWhile isSpaceC).reverse.dropWhile isSpaceC).reverse

/-- Python `str.lower()` (ASCII). -/
def lowerL (cs : List Char) : List Char :=
  cs.map Char.toLower

/-- Helper for `titleL`: the Bool records whether the previous character was
alphabetic. -/
def titleGo : Bool → List Char → List Char
  | _, [] => []
  | prevA, c :: t =>
    if c.isAlpha then
      (if prevA then c.toLower else c.toUpper) :: titleGo true t
    else
      c :: titleGo false t

/-- Python `str.title()`: the first letter of each alphabetic run is
uppercased, the rest lowercased; non-letters are kept. -/
def titleL (cs : List Char) : List Char :=
  titleGo false cs

/-- Does `hay` start with `pat`? -/
def startsWithL : List Char → List Char → Bool
  | _, [] => true
  | [], _ :: _ => false
  | a :: s, b :: p => a == b && startsWithL s p

/-- Does `hay` contain `pat` as a contiguous substring?  This is the
semantics of pandas `Series.str.contains` with a literal, case-sensitive
pattern (the source passes the plain word `Waste`, and the pandas default is
`case=True`). -/
def hasInfixL (pat : List Char) : List Char → Bool
  | [] => pat.isEmpty
  | c :: t => startsWithL (c :: t) pat || hasInfixL pat t

/-- Case-insensitive substring containment.  This is NOT what the source
runs; it is the reading some spec sentences use, kept for comparison. -/
def hasInfixCI (pat hay : List Char) : Bool :=
  hasInfixL (lowerL pat) (lowerL hay)

/-- Remove every comma, as `str.replace(',', '')` does. -/
def dropCommas (cs : List Char) : List Char :=
  cs.filter (fun c => c != ',')

/-! ### Numeric and date parsing -/

/-- Parse a nonempty all-digit string into a natural number. -/
def natOfDigits (cs : List Char) : Option Nat :=
  if cs.isEmpty then none
  else if cs.all Char.isDigit then
    some (cs.foldl (fun a c => a * 10 + (c.toNat - 48)) 0)
  else none

/-- Split a character list at the first dot: integer part and, when a dot is
present, the fractional part. -/
def splitDot : List Char → List Char × Option (List Char)
  | [] => ([], none)
  | c :: t =>
    if c == '.' then ([], some t)
    else
      let (a, b) := splitDot t
      (c :: a, b)

/-- Digits interpreted as the fractional part `0.d₁d₂…` of a rational. -/
def fracOfDigits (cs : List Char) : Option ℚ :=
  if cs.isEmpty then some 0
  else
    match natOfDigits cs with
    | none => none
    | some n => some ((n : ℚ) / ((10 : ℚ) ^ cs.length))

/-- Decimal parsing as `pd.to_numeric` performs it on a comma-free string:
optional surrounding whitespace, optional sign, digits with an optional
fractional part; anything else fails. -/
def parseDec (cs0 : List Char) : Option ℚ :=
  let cs := stripL cs0
  let (neg, body) :=
    match cs with
    | '-' :: t => (true, t)
    | '+' :: t => (false, t)
    | _ => (false, cs)
  let (ip, fp) := splitDot body
  let signed : ℚ → Option ℚ := fun q => some (if neg then -q else q)
  match fp with
  | none =>
    match natOfDigits ip with
    | none => none
    | some n => signed (n : ℚ)
  | some f =>
    if ip.isEmpty && f.isEmpty then none
    else
      match (if ip.isEmpty then some 0 else natOfDigits ip), fracOfDigits f with
      | some n, some q => signed ((n : ℚ) + q)
      | _, _ => none

/-- Month/day in calendar range. -/
def validMD (m d : Nat) : Bool :=
  1 ≤ m && m ≤ 12 && 1 ≤ d && d ≤ 31

/-- Split on a separator character. -/
def splitSep (sep : Char) : List Char → List (List Char)
  | [] => [[]]
  | c :: t =>
    if c == sep then [] :: splitSep sep t
    else
      match splitSep sep t with
      | [] => [[c]]
      | g :: gs => (c :: g) :: gs

/-- Representative recognized-format set of `pd.to_datetime`'s permissive
parser: ISO `YYYY-MM-DD` and US `M/D/YYYY`.  Strings outside the recognized
set fail (and will be coerced to the missing marker). -/
def parseDateStr (cs0 : List Char) : Option (Nat × Nat × Nat) :=
  let cs := stripL cs0
  match splitSep '-' cs with
  | [ys, ms, ds] =>
    match natOfDigits ys, natOfDigits ms, natOfDigits ds with
    | some y, some m, some d => if validMD m d then some (y, m, d) else none
    | _, _, _ => none
  | _ =>
    match splitSep '/' cs with
    | [ms, ds, ys] =>
      match natOfDigits ys, natOfDigits ms, natOfDigits ds with
      | some y, some m, some d => if validMD m d then some (y, m, d) else none
      | _, _, _ => none
    | _ => none

/-! ### Data model -/

/-- One cell of the frame: a text value, a numeric value, a typed calendar
date, or the explicit missing marker (pandas NaN/NaT/None). -/
inductive Value where
  | str (s : String)
  | num (q : ℚ)
  | date (y m d : Nat)
  | na
  deriving DecidableEq, Repr

/-- `pd.isnull` on one cell. -/
def Value.isNa : Value → Bool
  | .na => true
  | _ => false

/-- One row of the activity table: the four named columns the pipeline
reads, the cells of any further columns the frame carries (`extra`), and the
`Has_Missing` flag column added by the cleaner (absent, i.e. meaningless,
before the cleaner runs; kept in the one row type for simplicity). -/
structure Row where
  source : Value
  date : Value
  amount : Value
  unit : Value
  extra : List Value
  hasMissing : Bool
  deriving DecidableEq, Repr

abbrev Table := List Row

/-! ### Stage 2: clean_data.  The source works column-wise: each statement
rewrites one whole column of the copied frame.  Each column statement is
embedded as one pass mapping the corresponding per-cell coercion over the
rows. -/

/-- `pd.to_datetime(col, errors='coerce')` on one cell: typed dates pass
through, recognized date strings parse, everything else becomes NaT. -/
def toDatetimeCoerce : Value → Value
  | .date y m d => .date y m d
  | .str s =>
    match parseDateStr s.data with
    | some (y, m, d) => .date y m d
    | none => .na
  | _ => .na

/-- `col.str.strip().str.title()` on one cell; the `.str` accessor yields
NaN on non-string cells. -/
def cleanSourceV : Value → Value
  | .str s => .str ⟨titleL (stripL s.data)⟩
  | _ => .na

/-- `col.astype(str).str.replace(',', '')` on one cell.  A numeric cell's
string form has no comma and parses back to the same number, so it is kept
as the number; NaN stringifies to `"nan"`, which `pd.to_numeric` maps back
to NaN, so it is kept as the marker; a typed date's string form never parses
numerically, so it is kept to be coerced by the next pass. -/
def astypeStr : Value → Value
  | .str s => .str ⟨dropCommas s.data⟩
  | v => v

/-- `pd.to_numeric(col, errors='coerce')` on one cell. -/
def toNumericCoerce : Value → Value
  | .num q => .num q
  | .str s =>
    match parseDec s.data with
    | some q => .num q
    | none => .na
  | _ => .na

/-- `col.str.lower().str.strip()` on one cell. -/
def cleanUnitV : Value → Value
  | .str s => .str ⟨stripL (lowerL s.data)⟩
  | _ => .na

def passDate (t : Table) : Table :=
  t.map fun r => { r with date := toDatetimeCoerce r.date }

def passSource (t : Table) : Table :=
  t.map fun r => { r with source := cleanSourceV r.source }

def passAmountStr (t : Table) : Table :=
  t.map fun r => { r with amount := astypeStr r.amount }

def passAmountNum (t : Table) : Table :=
  t.map fun r => { r with amount := toNumericCoerce r.amount }

def passUnit (t : Table) : Table :=
  t.map fun r => { r with unit := cleanUnitV r.unit }

/-- `df.isnull().any(axis=1)`: the OR of `isnull` over EVERY cell of the
row — the four named columns and all further columns alike. -/
def rowAnyNull (r : Row) : Bool :=
  r.source.isNa || r.date.isNa || r.amount.isNa || r.unit.isNa ||
    r.extra.any Value.isNa

def passFlag (t : Table) : Table :=
  t.map fun r => { r with hasMissing := rowAnyNull r }

/-- `clean_data`: copy the frame, then run the column statements in source
order (Date, Source, Amount ×2, Unit, Has_Missing). -/
def clean_data (t : Table) : Table :=
  passFlag (passUnit (passAmountNum (passAmountStr (passSource (passDate t)))))

/-- The per-row effect of `clean_data` (derived; the column passes commute
into one map, proved below). -/
def cleanRow (r : Row) : Row :=
  let r1 : Row :=
    { r with
      source := cleanSourceV r.source
      date := toDatetimeCoerce r.date
      amount := toNumericCoerce (astypeStr r.amount)
      unit := cleanUnitV r.unit }
  { r1 with hasMissing := rowAnyNull r1 }

/-! ### Stage 3: convert_units.  The source computes a boolean mask over the
current frame, then rewrites the Amount and Unit columns under that mask;
the three masked rules run in sequence over the partially rewritten table,
and the currency relabel is a whole-column `replace`. -/

/-- Apply a rational map to a numeric cell; any other cell (in particular
the NaN marker) is left as is, as pandas arithmetic propagates NaN. -/
def numMap (f : ℚ → ℚ) : Value → Value
  | .num q => .num (f q)
  | v => v

def kmFactor : ℚ := 0.621371
def literFactor : ℚ := 0.264172

/-- `df['Source'].str.contains('Waste', na=False)`: literal, case-sensitive
substring test, false on the missing marker and on non-strings. -/
def sourceHasWaste : Value → Bool
  | .str s => hasInfixL "Waste".data s.data
  | _ => false

/-- Mask `Unit == 'km'`; scale Amount by 0.621371, relabel to miles. -/
def passKm (t : Table) : Table :=
  t.map fun r =>
    if r.unit = Value.str "km" then
      { r with amount := numMap (· * kmFactor) r.amount, unit := Value.str "miles" }
    else r

/-- Mask `(Unit == 'kg') & Source.str.contains('Waste', na=False)`; divide
Amount by 1000, relabel to tons. -/
def passKg (t : Table) : Table :=
  t.map fun r =>
    if r.unit = Value.str "kg" ∧ sourceHasWaste r.source = true then
      { r with amount := numMap (· / 1000) r.amount, unit := Value.str "tons" }
    else r

/-- Mask `Unit == 'liters'`; scale Amount by 0.264172, relabel to gallons. -/
def passLiters (t : Table) : Table :=
  t.map fun r =>
    if r.unit = Value.str "liters" then
      { r with amount := numMap (· * literFactor) r.amount, unit := Value.str "gallons" }
    else r

/-- `df['Unit'].replace({'$': 'usd'})`: whole-column exact-value relabel. -/
def passDollar (t : Table) : Table :=
  t.map fun r =>
    if r.unit = Value.str "$" then { r with unit := Value.str "usd" } else r

/-- `convert_units`: copy the frame, then the three masked rules in source
order, then the currency relabel. -/
def convert_units (t : Table) : Table :=
  passDollar (passLiters (passKg (passKm t)))

/-- The sequential per-row effect of `convert_units` (derived; proved equal
to `convert_units` row by row below). -/
def convertRow (r : Row) : Row :=
  let r1 :=
    if r.unit = Value.str "km" then
      { r with amount := numMap (· * kmFactor) r.amount, unit := Value.str "miles" }
    else r
  let r2 :=
    if r1.unit = Value.str "kg" ∧ sourceHasWaste r1.source = true then
      { r1 with amount := numMap (· / 1000) r1.amount, unit := Value.str "tons" }
    else r1
  let r3 :=
    if r2.unit = Value.str "liters" then
      { r2 with amount := numMap (· * literFactor) r2.amount, unit := Value.str "gallons" }
    else r2
  if r3.unit = Value.str "$" then { r3 with unit := Value.str "usd" } else r3

/-- Per-row first-matching-rule-wins dispatch over the pre-conversion
unit/source values, written from the spec's words (the reference semantics
claim C7 compares the sequential masked implementation against). -/
def convertRowDispatch (r : Row) : Row :=
  if r.unit = Value.str "km" then
    { r with amount := numMap (· * kmFactor) r.amount, unit := Value.str "miles" }
  else if r.unit = Value.str "kg" ∧ sourceHasWaste r.source = true then
    { r with amount := numMap (· / 1000) r.amount, unit := Value.str "tons" }
  else if r.unit = Value.str "liters" then
    { r with amount := numMap (· * literFactor) r.amount, unit := Value.str "gallons" }
  else if r.unit = Value.str "$" then
    { r with unit := Value.str "usd" }
  else r

/-! ### Stage 1: load_raw_data.  The input file is modelled by presence plus
a list of comma-split lines (first line the header).  `pd.read_csv` raises
`FileNotFoundError` on a missing file and `EmptyDataError` on an empty one;
neither is caught by the source's `except pd.errors.ParserError`, so both
propagate.  A `ParserError` (a data row with a field count differing from
the header) is caught and the file re-read leniently, skipping such rows.
The source never inspects which columns the parsed frame has. -/

structure RawFile where
  present : Bool
  lines : List (List String)

/-- The failures `load_raw_data` lets propagate to its caller. -/
inductive LoadErr where
  | fileAbsent
  | emptyData
  deriving DecidableEq, Repr

/-- The parsed frame before typing: header names and raw text rows. -/
structure Frame where
  cols : List String
  rows : List (List String)
  deriving DecidableEq, Repr

def load_raw_data (f : RawFile) : Except LoadErr Frame :=
  if f.present = false then .error .fileAbsent
  else
    match f.lines with
    | [] => .error .emptyData
    | header :: body =>
      if body.all (fun r => r.length = header.length) then
        .ok ⟨header, body⟩
      else
        .ok ⟨header, body.filter (fun r => r.length = header.length)⟩

/-- Did the load propagate an error to the caller? -/
def loadFails (f : RawFile) : Bool :=
  match load_raw_data f with
  | .error _ => true
  | .ok _ => false

/-! ### Heap model for the mutation claims.  `clean_data` and
`convert_units` begin with `df.copy()` and then assign columns of the copy
in place.  The heap holds every live frame; a frame is referred to by its
index.  `df.copy()` allocates a fresh cell; each column statement is an
in-place store to the callee's cell. -/

abbrev Heap := List Table

def heapGet (h : Heap) (r : Nat) : Table :=
  h.getD r []

def heapSet (h : Heap) (r : Nat) (t : Table) : Heap :=
  h.set r t

/-- `clean_data` as it executes: `df_clean = df.copy()` allocates a fresh
cell, then six in-place column stores rewrite that cell; the input cell is
never stored to.  Returns the mutated heap and the result reference. -/
def cleanProg (h : Heap) (src : Nat) : Heap × Nat :=
  let c := h.length
  let h1 := h ++ [heapGet h src]
  let h2 := heapSet h1 c (passDate (heapGet h1 c))
  let h3 := heapSet h2 c (passSource (heapGet h2 c))
  let h4 := heapSet h3 c (passAmountStr (heapGet h3 c))
  let h5 := heapSet h4 c (passAmountNum (heapGet h4 c))
  let h6 := heapSet h5 c (passUnit (heapGet h5 c))
  let h7 := heapSet h6 c (passFlag (heapGet h6 c))
  (h7, c)

/-- `convert_units` as it executes: `df_converted = df.copy()`, then the
masked stores and the column relabel, all on the fresh cell. -/
def convertProg (h : Heap) (src : Nat) : Heap × Nat :=
  let c := h.length
  let h1 := h ++ [heapGet h src]
  let h2 := heapSet h1 c (passKm (heapGet h1 c))
  let h3 := heapSet h2 c (passKg (heapGet h2 c))
  let h4 := heapSet h3 c (passLiters (heapGet h3 c))
  let h5 := heapSet h4 c (passDollar (heapGet h4 c))
  (h5, c)

/-! ### Helper lemmas -/

theorem set_append_singleton (h : List Table) (x y : Table) :
    (h ++ [x]).set h.length y = h ++ [y] := by
  induction h with
  | nil => rfl
  | cons a t ih => simp [List.set, ih]

theorem getD_append_singleton (h : List Table) (x : Table) :
    (h ++ [x]).getD h.length [] = x := by
  induction h with
  | nil => rfl
  | cons a t ih => simp [ih]

/-- Running `cleanProg` only appends one fresh cell, holding the pure
`clean_data` of the input frame. -/
theorem cleanProg_spec (h : Heap) (src : Nat) :
    cleanProg h src = (h ++ [clean_data (heapGet h src)], h.length) := by
  unfold cleanProg clean_data heapSet heapGet
  simp only [set_append_singleton, getD_append_singleton]

/-- Running `convertProg` only appends one fresh cell, holding the pure
`convert_units` of the input frame. -/
theorem convertProg_spec (h : Heap) (src : Nat) :
    convertProg h src = (h ++ [convert_units (heapGet h src)], h.length) := by
  unfold convertProg convert_units heapSet heapGet
  simp only [set_append_singleton, getD_append_singleton]

/-- Is the cell a typed date or the missing marker? -/
def isDateOrNa : Value → Bool
  | .date _ _ _ => true
  | .na => true
  | _ => false

/-- Is the cell numeric or the missing marker? -/
def isNumOrNa : Value → Bool
  | .num _ => true
  | .na => true
  | _ => false

/-- Is the cell one of the four canonical unit labels? -/
def canonicalUnit : Value → Bool
  | .str s => s == "miles" || s == "tons" || s == "gallons" || s == "usd"
  | _ => false

/-- The six column passes of `clean_data` fuse into a single row map. -/
theorem clean_data_eq_map (t : Table) : clean_data t = t.map cleanRow := by
  unfold clean_data passDate passSource passAmountStr passAmountNum passUnit passFlag
  simp only [List.map_map]
  rfl

/-- The four passes of `convert_units` fuse into the sequential row map. -/
theorem convert_units_eq_map (t : Table) :
    convert_units t = t.map convertRow := by
  unfold convert_units passKm passKg passLiters passDollar
  simp only [List.map_map]
  apply List.map_congr_left
  intro r _
  rfl

/-- Per row, the sequential masked passes coincide with first-match
dispatch over the pre-conversion unit/source: a rewritten row's new unit
label matches none of the later rules' conditions. -/
theorem convertRow_eq_dispatch (r : Row) :
    convertRow r = convertRowDispatch r := by
  by_cases h1 : r.unit = Value.str "km"
  · simp [convertRow, convertRowDispatch, h1]
  · by_cases h2 : r.unit = Value.str "kg" ∧ sourceHasWaste r.source = true
    · simp [convertRow, convertRowDispatch, h1, h2]
    · by_cases h3 : r.unit = Value.str "liters"
      · simp [convertRow, convertRowDispatch, h1, h2, h3]
      · by_cases h4 : r.unit = Value.str "$"
        · simp [convertRow, convertRowDispatch, h1, h2, h3, h4]
        · simp [convertRow, convertRowDispatch, h1, h2, h3, h4]

/-- A second sequential pass never rescales: every label a rule writes, and
every label no rule matches, is matched by no rule afterwards (for `kg` the
source is untouched, so the Waste test cannot start matching either). -/
theorem convertRow_idem (r : Row) :
    convertRow (convertRow r) = convertRow r := by
  rw [convertRow_eq_dispatch, convertRow_eq_dispatch]
  by_cases h1 : r.unit = Value.str "km"
  · simp [convertRowDispatch, h1]
  · by_cases h2 : r.unit = Value.str "kg" ∧ sourceHasWaste r.source = true
    · simp [convertRowDispatch, h1, h2]
    · by_cases h3 : r.unit = Value.str "liters"
      · simp [convertRowDispatch, h1, h2, h3]
      · by_cases h4 : r.unit = Value.str "$"
        · simp [convertRowDispatch, h1, h2, h3, h4]
        · simp [convertRowDispatch, h1, h2, h3, h4]

/-- A canonical unit label is matched by no rule. -/
theorem convertRow_canonical (r : Row) (h : canonicalUnit r.unit = true) :
    convertRow r = r := by
  rw [convertRow_eq_dispatch]
  cases u : r.unit with
  | str s =>
    rw [u] at h
    simp only [canonicalUnit, Bool.or_eq_true, beq_iff_eq] at h
    rcases h with ((rfl | rfl) | rfl) | rfl <;> simp [convertRowDispatch, u]
  | num q => rw [u] at h; simp [canonicalUnit] at h
  | date y m d => rw [u] at h; simp [canonicalUnit] at h
  | na => rw [u] at h; simp [canonicalUnit] at h

/-- After cleaning, the date cell is a typed date or the marker. -/
theorem toDatetimeCoerce_shape (v : Value) :
    isDateOrNa (toDatetimeCoerce v) = true := by
  cases v <;> simp [toDatetimeCoerce, isDateOrNa]
  case str s => cases parseDateStr s.data <;> simp [isDateOrNa]

/-- After cleaning, the amount cell is numeric or the marker. -/
theorem toNumericCoerce_shape (v : Value) :
    isNumOrNa (toNumericCoerce v) = true := by
  cases v <;> simp [toNumericCoerce, isNumOrNa]
  case str s => cases parseDec s.data <;> simp [isNumOrNa]

/-! ### Claims -/

/-- C1 (counterexample): the kg→tons rule is NOT case-insensitive on the
source.  The row source="Ewaste Disposal", unit="kg", amount=5000 contains
"waste" as a case-insensitive substring, so the claim demands amount=5 and
unit="tons"; `convert_units` leaves the row unchanged, because the source
runs the case-sensitive test `str.contains('Waste')` and "Ewaste Disposal"
has no capital-W "Waste". -/
theorem C1_kg_case_counterexample :
    hasInfixCI "Waste".data "Ewaste Disposal".data = true ∧
    convert_units
        [⟨Value.str "Ewaste Disposal", Value.date 2024 1 5, Value.num 5000,
          Value.str "kg", [], false⟩]
      = [⟨Value.str "Ewaste Disposal", Value.date 2024 1 5, Value.num 5000,
          Value.str "kg", [], false⟩] := by
  exact ⟨by decide, by decide⟩

/-- C1 (amended): the kg-to-tons rule fires exactly for rows whose unit
equals "kg" and whose source contains "Waste" as a CASE-SENSITIVE
substring: such rows get amount/1000 and unit "tons"; a "kg" row whose
source lacks that exact substring is left unchanged.  The spec's two
examples hold: Waste Disposal 5000 kg → 5 tons, Fleet Vehicles 5000 kg
unchanged. -/
theorem C1_kg_rule :
    (∀ r : Row, r.unit = Value.str "kg" →
      (sourceHasWaste r.source = true →
        convertRow r =
          { r with amount := numMap (· / 1000) r.amount, unit := Value.str "tons" }) ∧
      (sourceHasWaste r.source = false → convertRow r = r)) ∧
    convert_units
        [⟨Value.str "Waste Disposal", Value.date 2024 1 5, Value.num 5000,
          Value.str "kg", [], false⟩]
      = [⟨Value.str "Waste Disposal", Value.date 2024 1 5, Value.num 5,
          Value.str "tons", [], false⟩] ∧
    convert_units
        [⟨Value.str "Fleet Vehicles", Value.date 2024 1 5, Value.num 5000,
          Value.str "kg", [], false⟩]
      = [⟨Value.str "Fleet Vehicles", Value.date 2024 1 5, Value.num 5000,
          Value.str "kg", [], false⟩] := by
  refine ⟨?_, ?_, by decide⟩
  · intro r h
    constructor
    · intro hw
      rw [convertRow_eq_dispatch]
      simp [convertRowDispatch, h, hw]
    · intro hw
      rw [convertRow_eq_dispatch]
      simp [convertRowDispatch, h, hw]
  · have hw : sourceHasWaste (Value.str "Waste Disposal") = true := by decide
    simp [convert_units, passKm, passKg, passLiters, passDollar, hw, numMap]
    norm_num

/-- C1 (witness): the amended rule at the spec's two concrete rows. -/
theorem C1_kg_rule_witness :
    convertRow ⟨Value.str "Waste Disposal", Value.na, Value.num 5000,
        Value.str "kg", [], false⟩
      = ⟨Value.str "Waste Disposal", Value.na, Value.num (5000 / 1000 : ℚ),
          Value.str "tons", [], false⟩ ∧
    convertRow ⟨Value.str "Fleet Vehicles", Value.na, Value.num 5000,
        Value.str "kg", [], false⟩
      = ⟨Value.str "Fleet Vehicles", Value.na, Value.num 5000,
          Value.str "kg", [], false⟩ :=
  ⟨(C1_kg_rule.1 _ rfl).1 (by decide), (C1_kg_rule.1 _ rfl).2 (by decide)⟩

/-- C2 (counterexample): a well-formed, non-empty file whose header lacks
the required column "Source" is loaded successfully — `load_raw_data`
never validates the column set, so no failure is raised; the claim demands
a `LoadError` here. -/
theorem C2_load_counterexample :
    load_raw_data ⟨true, [["Date", "Amount", "Unit"], ["2024-01-01", "5", "kg"]]⟩
      = Except.ok ⟨["Date", "Amount", "Unit"], [["2024-01-01", "5", "kg"]]⟩ ∧
    ¬ ("Source" ∈ ["Date", "Amount", "Unit"]) := by
  exact ⟨rfl, by decide⟩

/-- C2 (amended): load propagates a failure to the caller exactly when the
input file does not exist or is empty; the required columns are never
validated, and any non-empty parseable file yields a table whose columns
are exactly the file's header — whether or not Source, Date, Amount, Unit
are among them. -/
theorem C2_load_errors :
    (∀ f : RawFile, loadFails f = (!f.present || f.lines.isEmpty)) ∧
    (∀ f : RawFile, ∀ hdr body, f.present = true → f.lines = hdr :: body →
      ∃ fr, load_raw_data f = Except.ok fr ∧ fr.cols = hdr) := by
  constructor
  · rintro ⟨p, ls⟩
    cases p
    · simp [loadFails, load_raw_data]
    · rcases ls with _ | ⟨h0, b⟩
      · simp [loadFails, load_raw_data]
      · by_cases hb : (b.all fun r => decide (r.length = h0.length)) = true
        · simp [loadFails, load_raw_data, hb]
        · simp [loadFails, load_raw_data, hb]
  · rintro ⟨p, ls⟩ hdr body hp hl
    cases hp
    cases hl
    by_cases hb : (body.all fun r => decide (r.length = hdr.length)) = true
    · exact ⟨⟨hdr, body⟩, by simp [load_raw_data, hb], rfl⟩
    · exact ⟨⟨hdr, body.filter fun r => r.length = hdr.length⟩,
        by simp [load_raw_data, hb], rfl⟩

/-- C2 (witness): the amended ok-case at a concrete well-formed file. -/
theorem C2_load_errors_witness :
    ∃ fr,
      load_raw_data
          ⟨true, [["Source", "Date", "Amount", "Unit"],
                  ["Lab", "2024-01-01", "5", "kg"]]⟩
        = Except.ok fr ∧ fr.cols = ["Source", "Date", "Amount", "Unit"] :=
  C2_load_errors.2 _ _ _ rfl rfl

/-- C3 (counterexample): `Has_Missing` is the OR of `isnull` over EVERY
column, not only the four named fields.  A row whose source, date, amount
and unit are all present but which carries a null in a fifth column is
flagged, although the four-field OR the claim states is false. -/
theorem C3_flag_counterexample :
    clean_data
        [⟨Value.str "Lab", Value.date 2024 1 5, Value.num 7, Value.str "kg",
          [Value.na], false⟩]
      = [⟨Value.str "Lab", Value.date 2024 1 5, Value.num 7, Value.str "kg",
          [Value.na], true⟩] ∧
    ((Value.str "Lab").isNa || (Value.date 2024 1 5).isNa ||
        (Value.num 7).isNa || (Value.str "kg").isNa) = false := by
  exact ⟨by decide, by decide⟩

/-- C3 (amended): on tables that carry no columns beyond the four the
pipeline reads, every cleaned row's `Has_Missing` equals the logical OR of
"is an explicit missing marker" over its source, date, amount and unit as
they stand immediately after cleaning; on wider tables the flag is the OR
of `isnull` over all columns of the row. -/
theorem C3_has_missing :
    ∀ t : Table, (∀ r ∈ t, r.extra = []) →
      ∀ r ∈ clean_data t,
        r.hasMissing
          = (r.source.isNa || r.date.isNa || r.amount.isNa || r.unit.isNa) := by
  intro t hE r hr
  rw [clean_data_eq_map] at hr
  rcases List.mem_map.1 hr with ⟨r0, hr0, rfl⟩
  have h0 := hE r0 hr0
  simp [cleanRow, rowAnyNull, h0]

/-- C3 (witness): the amended flag law at a concrete one-row table whose
amount is missing. -/
theorem C3_has_missing_witness :
    (⟨Value.str "Lab", Value.date 2024 1 5, Value.na, Value.str "kg", [],
        true⟩ : Row).hasMissing
      = ((Value.str "Lab").isNa || (Value.date 2024 1 5).isNa ||
          Value.na.isNa || (Value.str "kg").isNa) :=
  C3_has_missing
    [⟨Value.str "Lab", Value.date 2024 1 5, Value.na, Value.str "kg", [], false⟩]
    (by decide) _ (by decide)

/-- C4 (confirmed): `clean_data` is total on tables with the four fields —
it returns a table of the input's length, and in every output row the date
is a typed date or the missing marker and the amount is numeric or the
missing marker: an unparseable date string and an amount that fails numeric
parsing after comma-stripping each degrade to the marker, never to a
failure, as the concrete bad row shows. -/
theorem C4_clean_total :
    (∀ t : Table, (clean_data t).length = t.length ∧
      ∀ r ∈ clean_data t, isDateOrNa r.date = true ∧ isNumOrNa r.amount = true) ∧
    clean_data
        [⟨Value.str "Lab", Value.str "not a date", Value.str "12x",
          Value.str "kg", [], false⟩]
      = [⟨Value.str "Lab", Value.na, Value.na, Value.str "kg", [], true⟩] := by
  constructor
  · intro t
    constructor
    · rw [clean_data_eq_map]; simp
    · intro r hr
      rw [clean_data_eq_map] at hr
      rcases List.mem_map.1 hr with ⟨r0, _, rfl⟩
      constructor
      · simpa [cleanRow] using toDatetimeCoerce_shape r0.date
      · simpa [cleanRow] using toNumericCoerce_shape (astypeStr r0.amount)
  · decide

/-- C4 (witness): the per-row shape law at the concrete bad row. -/
theorem C4_clean_total_witness :
    isDateOrNa Value.na = true ∧ isNumOrNa Value.na = true :=
  (C4_clean_total.1
      [⟨Value.str "Lab", Value.str "not a date", Value.str "12x",
        Value.str "kg", [], false⟩]).2
    ⟨Value.str "Lab", Value.na, Value.na, Value.str "kg", [], true⟩ (by decide)

/-- C5 (confirmed): row count and positional order are invariant across
clean and convert: lengths are preserved by each stage, and the row at
index i of the converted table is exactly the cleaned-then-converted row at
index i of the input — no row is added, removed or moved. -/
theorem C5_row_count :
    ∀ t : Table,
      (clean_data t).length = t.length ∧
      (convert_units (clean_data t)).length = (clean_data t).length ∧
      (∀ i : Nat, (clean_data t)[i]? = (t[i]?).map cleanRow) ∧
      ∀ i : Nat,
        (convert_units (clean_data t))[i]?
          = (t[i]?).map (fun r => convertRow (cleanRow r)) := by
  intro t
  refine ⟨?_, ?_, ?_, ?_⟩ <;>
    simp [clean_data_eq_map, convert_units_eq_map, List.getElem?_map,
      Option.map_map, Function.comp_def]

/-- C6 (confirmed): a table whose every unit is already a canonical label
(miles, tons, gallons, usd) passes through `convert_units` unchanged — in
particular "miles" is not re-matched by the km rule — and a second
conversion of an already converted table changes nothing:
convert (convert (clean t)) = convert (clean t). -/
theorem C6_convert_idempotent :
    (∀ t : Table, (∀ r ∈ t, canonicalUnit r.unit = true) → convert_units t = t) ∧
    (∀ t : Table,
      convert_units (convert_units (clean_data t)) = convert_units (clean_data t)) := by
  constructor
  · intro t h
    rw [convert_units_eq_map]
    have hmap : t.map convertRow = t.map id :=
      List.map_congr_left fun r hr => convertRow_canonical r (h r hr)
    simpa using hmap
  · intro t
    have hall : ∀ u : Table, convert_units (convert_units u) = convert_units u := by
      intro u
      rw [convert_units_eq_map u, convert_units_eq_map, List.map_map]
      exact List.map_congr_left fun r _ => convertRow_idem r
    exact hall (clean_data t)

/-- C6 (witness): a concrete all-canonical table is fixed by convert. -/
theorem C6_convert_idempotent_witness :
    convert_units
        [⟨Value.str "Fleet Vehicles", Value.na, Value.num 62, Value.str "miles",
          [], false⟩,
         ⟨Value.str "Waste Disposal", Value.na, Value.num 5, Value.str "tons",
          [], false⟩]
      = [⟨Value.str "Fleet Vehicles", Value.na, Value.num 62, Value.str "miles",
          [], false⟩,
         ⟨Value.str "Waste Disposal", Value.na, Value.num 5, Value.str "tons",
          [], false⟩] :=
  C6_convert_idempotent.1 _ (by decide)

/-- C7 (confirmed): with the current four rules, the sequential masked
passes of `convert_units` (each mask computed over the partially rewritten
table, in order km, kg+Waste, liters, $) coincide, on every table, with a
per-row first-matching-rule-wins dispatch over the pre-conversion
unit/source values: no row is rewritten by more than one rule per pass. -/
theorem C7_seq_eq_first_match :
    ∀ t : Table, convert_units t = t.map convertRowDispatch := by
  intro t
  rw [convert_units_eq_map]
  exact List.map_congr_left fun r _ => convertRow_eq_dispatch r

/-- C8 (confirmed): neither stage mutates its caller's table.  In the heap
model of the execution (copy, then in-place column stores on the fresh
frame), the heap cell holding the input frame is untouched by `cleanProg`
and by `convertProg`, while the returned reference holds the pure
`clean_data` / `convert_units` of the input — a fresh table built from a
copy. -/
theorem C8_no_input_mutation :
    ∀ (h : Heap) (r : Nat), r < h.length →
      (cleanProg h r).1[r]? = h[r]? ∧
      (convertProg h r).1[r]? = h[r]? ∧
      heapGet (cleanProg h r).1 (cleanProg h r).2 = clean_data (heapGet h r) ∧
      heapGet (convertProg h r).1 (convertProg h r).2
        = convert_units (heapGet h r) := by
  intro h r hr
  rw [cleanProg_spec, convertProg_spec]
  refine ⟨List.getElem?_append_left hr, List.getElem?_append_left hr, ?_, ?_⟩
  · exact getD_append_singleton h _
  · exact getD_append_singleton h _

/-- C8 (witness): a one-cell heap holding one concrete row. -/
theorem C8_no_input_mutation_witness :
    (cleanProg [[⟨Value.str "Lab", Value.na, Value.num 7, Value.str "km", [],
        false⟩]] 0).1[0]?
      = [[(⟨Value.str "Lab", Value.na, Value.num 7, Value.str "km", [],
          false⟩ : Row)]][0]? ∧
    (convertProg [[⟨Value.str "Lab", Value.na, Value.num 7, Value.str "km", [],
        false⟩]] 0).1[0]?
      = [[(⟨Value.str "Lab", Value.na, Value.num 7, Value.str "km", [],
          false⟩ : Row)]][0]? ∧
    heapGet (cleanProg [[⟨Value.str "Lab", Value.na, Value.num 7,
        Value.str "km", [], false⟩]] 0).1
        (cleanProg [[⟨Value.str "Lab", Value.na, Value.num 7, Value.str "km",
          [], false⟩]] 0).2
      = clean_data (heapGet [[⟨Value.str "Lab", Value.na, Value.num 7,
          Value.str "km", [], false⟩]] 0) ∧
    heapGet (convertProg [[⟨Value.str "Lab", Value.na, Value.num 7,
        Value.str "km", [], false⟩]] 0).1
        (convertProg [[⟨Value.str "Lab", Value.na, Value.num 7, Value.str "km",
          [], false⟩]] 0).2
      = convert_units (heapGet [[⟨Value.str "Lab", Value.na, Value.num 7,
          Value.str "km", [], false⟩]] 0) :=
  C8_no_input_mutation _ 0 (by decide)

/-- C9 (confirmed): every row matching the km rule has its amount
multiplied by exactly the constant 0.621371 (here exact rational
arithmetic) and its unit rewritten to "miles"; at amount 100 the result is
62.1371. -/
theorem C9_km_arithmetic :
    (∀ (r : Row) (q : ℚ), r.unit = Value.str "km" → r.amount = Value.num q →
      (convertRow r).amount = Value.num (q * kmFactor) ∧
      (convertRow r).unit = Value.str "miles") ∧
    kmFactor = (621371 : ℚ) / 1000000 ∧
    convert_units
        [⟨Value.str "Air Travel", Value.date 2024 1 5, Value.num 100,
          Value.str "km", [], false⟩]
      = [⟨Value.str "Air Travel", Value.date 2024 1 5,
          Value.num (621371 / 10000 : ℚ), Value.str "miles", [], false⟩] := by
  refine ⟨?_, by norm_num [kmFactor], ?_⟩
  · intro r q hu ha
    rw [convertRow_eq_dispatch]
    simp [convertRowDispatch, hu, ha, numMap]
  · simp [convert_units, passKm, passKg, passLiters, passDollar, sourceHasWaste,
      numMap, kmFactor]
    norm_num

/-- C9 (witness): the km law at a concrete 100 km row. -/
theorem C9_km_arithmetic_witness :
    (convertRow ⟨Value.str "Air Travel", Value.na, Value.num 100,
        Value.str "km", [], false⟩).amount = Value.num (100 * kmFactor) ∧
    (convertRow ⟨Value.str "Air Travel", Value.na, Value.num 100,
        Value.str "km", [], false⟩).unit = Value.str "miles" :=
  C9_km_arithmetic.1 _ 100 rfl rfl

/-- C10 (confirmed): a row whose unit (and, for kg, source) matches a rule
but whose amount is the missing marker still has its unit rewritten to the
canonical label while the amount stays the marker — pandas arithmetic
propagates NaN and the unit store is unconditional under the mask; so a
canonical unit label does not imply a present amount. -/
theorem C10_missing_amount_relabel :
    ∀ r : Row, r.amount = Value.na →
      ((r.unit = Value.str "km" → convertRow r = { r with unit := Value.str "miles" }) ∧
       (r.unit = Value.str "kg" → sourceHasWaste r.source = true →
         convertRow r = { r with unit := Value.str "tons" }) ∧
       (r.unit = Value.str "liters" →
         convertRow r = { r with unit := Value.str "gallons" }) ∧
       (r.unit = Value.str "$" → convertRow r = { r with unit := Value.str "usd" })) := by
  intro r ha
  refine ⟨?_, ?_, ?_, ?_⟩
  · intro hu
    rw [convertRow_eq_dispatch]
    simp [convertRowDispatch, hu, ha, numMap]
  · intro hu hw
    rw [convertRow_eq_dispatch]
    simp [convertRowDispatch, hu, hw, ha, numMap]
  · intro hu
    rw [convertRow_eq_dispatch]
    simp [convertRowDispatch, hu, ha, numMap]
  · intro hu
    rw [convertRow_eq_dispatch]
    simp [convertRowDispatch, hu, ha, numMap]

/-- C10 (witness): a km row with missing amount becomes a miles row with
missing amount. -/
theorem C10_missing_amount_relabel_witness :
    convertRow ⟨Value.str "Air Travel", Value.na, Value.na, Value.str "km",
        [], false⟩
      = ⟨Value.str "Air Travel", Value.na, Value.na, Value.str "miles",
          [], false⟩ :=
  (C10_missing_amount_relabel _ rfl).1 rfl

end GHG
